import Mathlib

/-!
Shallow embedding of the wadash server (`src/server.js`, final revision,
with `src/backup4_server.js` as an earlier revision of the same handlers).

The server keeps, per session id, a live Protocol Client handle
(`clients[sessionId]`), a status string (`sessionStatus[sessionId]`), and an
in-memory store on the handle (`sock.store`) holding chats, contacts and
messages.  JavaScript objects / `Map`s are modelled as association lists that
preserve insertion order (`Map.set` updates in place, new keys append, which
matches the JS iteration order).  External effects (auth-state loading,
`makeWASocket`, `logout()`, `readMessages`, `fetchMessagesFromWA`) are
modelled by explicit boolean / list parameters describing their outcome, and
Protocol Client constructions are counted by `nextClient`.
-/

namespace Wadash

/-- Lookup in an insertion-ordered association list (JS object property read). -/
def lookupA {α : Type} (l : List (String × α)) (k : String) : Option α :=
  match l with
  | [] => none
  | (k', v) :: rest => if k' = k then some v else lookupA rest k

/-- Write to an insertion-ordered association list: existing keys are updated
in place, new keys are appended (JS object property write / `Map.set`). -/
def setA {α : Type} (l : List (String × α)) (k : String) (v : α) :
    List (String × α) :=
  match l with
  | [] => [(k, v)]
  | (k', v') :: rest =>
    if k' = k then (k, v) :: rest else (k', v') :: setA rest k v

/-- Remove a key (JS `delete obj[k]`). -/
def eraseA {α : Type} (l : List (String × α)) (k : String) :
    List (String × α) :=
  l.filter (fun p => p.1 ≠ k)

/-- JS truthiness of an optional string: `undefined` and `''` are falsy. -/
def strTruthy (o : Option String) : Bool :=
  o.getD "" ≠ ""

/-- JS `a || b` on an optional string `a` with default `b`. -/
def strOrD (o : Option String) (d : String) : String :=
  if strTruthy o then o.getD "" else d

/-- Two-digit zero padding of a number below 100. -/
def pad2 (n : Nat) : String :=
  if n < 10 then "0" ++ toString n else toString n

/-- `formatTime` (src/server.js:515-519): renders a timestamp's time of day.
The source calls `toLocaleTimeString` with 2-digit hour and minute; we model
the default-locale rendering as 24-hour `HH:MM` on the epoch-second value. -/
def formatTime (t : Nat) : String :=
  pad2 (t / 3600 % 24) ++ ":" ++ pad2 (t / 60 % 60)

/-- Characters before the first `@` (the `[0]` element of JS `split('@')`). -/
def takeUntilAt : List Char → List Char
  | [] => []
  | c :: cs => if c = '@' then [] else c :: takeUntilAt cs

/-- `formatPhoneNumber` (src/server.js:509-513): the part of a JID before the
`@` domain separator; empty input yields the empty string. -/
def formatPhoneNumber (jid : String) : String :=
  if jid = "" then "" else String.mk (takeUntilAt jid.data)

/-- JS `String.prototype.endsWith`, over the character lists. -/
def strEndsWith (s suf : String) : Bool :=
  suf.data.isSuffixOf s.data

/-- Lexicographic strict comparison of character lists (the order
`localeCompare` realises on the plain ASCII strings the server builds). -/
def charListLt : List Char → List Char → Bool
  | [], [] => false
  | [], _ :: _ => true
  | _ :: _, [] => false
  | a :: as, b :: bs => if a = b then charListLt as bs else decide (a < b)

/-- Strict string comparison: `a` comes strictly before `b`. -/
def strLtb (a b : String) : Bool :=
  charListLt a.data b.data

/-- Message key as read by the server: `key.id`, `key.remoteJid`, `key.fromMe`. -/
structure MsgKey where
  id : String
  remoteJid : String
  fromMe : Bool
deriving Repr, DecidableEq

/-- The fields of an inbound protocol message the server reads:
`messageTimestamp` (absent is modelled as `none`; the source treats `0` and
absent alike via truthiness), `message.conversation` and
`message.extendedTextMessage.text`. -/
structure Msg where
  key : MsgKey
  messageTimestamp : Option Nat := none
  conversation : Option String := none
  extendedText : Option String := none
deriving Repr, DecidableEq

/-- A chat record as held in `sock.store.chats` (fields may be absent when the
record came from a `chats.set` / `chats.upsert` event). -/
structure Chat where
  id : String
  name : Option String := none
  subject : Option String := none
  conversationTimestamp : Option Nat := none
  unreadCount : Option Nat := none
deriving Repr, DecidableEq

/-- A contact record as held in `sock.store.contacts`. -/
structure Contact where
  id : String
  name : Option String := none
  notify : Option String := none
deriving Repr, DecidableEq

/-- `sock.store` (src/server.js:548-552): chats, contacts and per-conversation
message sequences. -/
structure Store where
  chats : List (String × Chat) := []
  contacts : List (String × Contact) := []
  messages : List (String × List Msg) := []
deriving Repr, DecidableEq

/-- The store a freshly created client starts with. -/
def emptyStore : Store := {}

/-- Does the conversation `jid` already hold a message with id `i`
(src/server.js:654-656, the `some` dedup check)? -/
def hasMsgId (st : Store) (jid i : String) : Bool :=
  ((lookupA st.messages jid).getD []).any (fun m => m.key.id = i)

/-- One iteration of the `messages.upsert` handler's message loop
(src/server.js:637-677): skip the status broadcast, skip duplicates by key id,
otherwise append the message and create/update the chat record, incrementing
`unreadCount` only for messages not from self. -/
def ingestMessage (st : Store) (msg : Msg) : Store :=
  let jid := msg.key.remoteJid
  if jid = "status@broadcast" then st
  else if hasMsgId st jid msg.key.id then st
  else
    let msgs := (lookupA st.messages jid).getD []
    let st1 : Store := { st with messages := setA st.messages jid (msgs ++ [msg]) }
    match lookupA st1.chats jid with
    | none =>
      let newChat : Chat :=
        { id := jid
          conversationTimestamp := msg.messageTimestamp
          unreadCount := some (if msg.key.fromMe then 0 else 1) }
      { st1 with chats := setA st1.chats jid newChat }
    | some chat =>
      let updated : Chat :=
        { chat with
          conversationTimestamp := msg.messageTimestamp
          unreadCount :=
            if msg.key.fromMe then chat.unreadCount
            else some (chat.unreadCount.getD 0 + 1) }
      { st1 with chats := setA st1.chats jid updated }

/-- One iteration of the `messages.update` handler's loop
(src/server.js:721-744): skip the status broadcast; on a `READ` status update,
zero the chat's unread count if the chat record exists. -/
def applyReadStatus (st : Store) (jid : String) (status : Option String) :
    Store :=
  if jid = "status@broadcast" then st
  else if status = some "READ" then
    match lookupA st.chats jid with
    | some chat =>
      let cleared : Chat := { chat with unreadCount := some 0 }
      { st with chats := setA st.chats jid cleared }
    | none => st
  else st

/-- The unread count a chat record currently carries (`chat.unreadCount || 0`;
an absent chat contributes `0`). -/
def unreadOf (st : Store) (jid : String) : Nat :=
  match lookupA st.chats jid with
  | some c => c.unreadCount.getD 0
  | none => 0

/-- Number of records with message id `i` in conversation `jid`. -/
def msgIdCount (st : Store) (jid i : String) : Nat :=
  (((lookupA st.messages jid).getD []).filter (fun m => m.key.id = i)).length

/-- Invariant: no conversation's message sequence holds two records with the
same message id. -/
def storeMsgIdsNodup (st : Store) : Prop :=
  ∀ jid : String,
    (((lookupA st.messages jid).getD []).map (fun m => m.key.id)).Nodup

/-- One entry of the formatted chat list the `getChats` handler returns
(src/server.js:910-916). -/
structure ChatSummary where
  jid : String
  name : String
  lastMessage : String
  time : String
  unread : Nat
deriving Repr, DecidableEq

/-- Display-name resolution of the `getChats` handler (src/server.js:868-884
plus the `name || formatPhoneNumber(chat.id)` fallback at 912): a truthy
`chat.name` wins; private-chat ids (`@s.whatsapp.net`) fall back to the
contact's `name`, then `notify`, then the phone-number local part; group ids
(`@g.us`) fall back to `chat.subject`, then `'Group'`; anything else leaves
`name` empty and the final fallback supplies the local part. -/
def resolveChatName (st : Store) (chat : Chat) : String :=
  let name :=
    if strTruthy chat.name then chat.name.getD ""
    else if strEndsWith chat.id "@s.whatsapp.net" then
      match lookupA st.contacts chat.id with
      | some contact =>
        strOrD contact.name (strOrD contact.notify (formatPhoneNumber chat.id))
      | none => formatPhoneNumber chat.id
    else if strEndsWith chat.id "@g.us" then strOrD chat.subject "Group"
    else ""
  if name = "" then formatPhoneNumber chat.id else name

/-- Last-message text and formatted time of a conversation
(src/server.js:886-908): taken from the last appended record; the time is
rendered only when the record carries a truthy timestamp. -/
def chatLastMessage (st : Store) (jid : String) : String × String :=
  match ((lookupA st.messages jid).getD []).getLast? with
  | none => ("", "")
  | some lastMsg =>
    let lastMessage :=
      strOrD lastMsg.conversation (strOrD lastMsg.extendedText "Media message")
    let time :=
      if lastMsg.messageTimestamp.getD 0 ≠ 0 then
        formatTime (lastMsg.messageTimestamp.getD 0)
      else ""
    (lastMessage, time)

/-- The per-chat body of the `getChats` mapping (src/server.js:864-917):
the status broadcast maps to `null`, every other chat to a summary. -/
def formatChat (st : Store) (chat : Chat) : Option ChatSummary :=
  if chat.id = "status@broadcast" then none
  else
    let lm := chatLastMessage st chat.id
    some { jid := chat.id
           name := resolveChatName st chat
           lastMessage := lm.1
           time := lm.2
           unread := chat.unreadCount.getD 0 }

/-- The chat-sort comparator (src/server.js:923-927) reformulated as the
"goes no later than" Boolean relation a stable sort consumes: chats with an
empty `time` sort last, and otherwise the lexically larger formatted time
string goes first (`b.time.localeCompare(a.time)`). -/
def chatLe (a b : ChatSummary) : Bool :=
  if a.time = "" then false
  else if b.time = "" then true
  else !(strLtb a.time b.time)

/-- Insert into a sorted list, before the first element the new element may
precede (the stable-sort placement the source's `Array.prototype.sort` uses
with a consistent comparator). -/
def insertLe {α : Type} (le : α → α → Bool) (a : α) : List α → List α
  | [] => [a]
  | b :: l => if le a b then a :: b :: l else b :: insertLe le a l

/-- Stable insertion sort by a Boolean "goes no later than" relation. -/
def sortLe {α : Type} (le : α → α → Bool) : List α → List α
  | [] => []
  | a :: l => insertLe le a (sortLe le l)

/-- The full chat-list computation of the `getChats` handler on a store
(src/server.js:860-927): format every stored chat in insertion order, drop
the broadcast `null`, sort with the time-string comparator. -/
def listChats (st : Store) : List ChatSummary :=
  sortLe chatLe ((st.chats.map (fun p => formatChat st p.2)).filterMap id)

/-- One entry of the formatted message list the `getChatMessages` handler
returns (src/server.js:1021-1027). -/
structure MsgSummary where
  id : String
  fromMe : Bool
  text : String
  time : String
  timestamp : Option Nat
deriving Repr, DecidableEq

/-- Per-message formatting of the `getChatMessages` handler
(src/server.js:1008-1028). -/
def formatMsg (m : Msg) : MsgSummary :=
  { id := m.key.id
    fromMe := m.key.fromMe
    text := strOrD m.conversation (strOrD m.extendedText "Media message")
    time :=
      if m.messageTimestamp.getD 0 ≠ 0 then
        formatTime (m.messageTimestamp.getD 0)
      else ""
    timestamp := m.messageTimestamp }

/-- The message-sort comparator (src/server.js:1031-1035) as a Boolean
relation: records without a truthy timestamp sort first, the rest ascend by
timestamp. -/
def msgLe (a b : MsgSummary) : Bool :=
  if a.timestamp.getD 0 = 0 then true
  else if b.timestamp.getD 0 = 0 then false
  else decide (a.timestamp.getD 0 ≤ b.timestamp.getD 0)

/-- A live Protocol Client handle: the construction token identifies which
`makeWASocket` call produced it, and the handle owns its `sock.store`. -/
structure Client where
  token : Nat
  store : Store
deriving Repr, DecidableEq

/-- The server's global mutable state: `clients`, `sessionStatus`, the
sessions directory contents (which session ids have persisted credentials),
and a counter of Protocol Client constructions performed so far. -/
structure ServerState where
  clients : List (String × Client) := []
  sessionStatus : List (String × String) := []
  persisted : List String := []
  nextClient : Nat := 0
deriving Repr, DecidableEq

/-- `sessionExists` (src/server.js:503-506): presence of a non-empty
credential folder for the session id, modelled as membership in `persisted`;
the in-memory `clients` registry is not consulted. -/
def sessionExists (st : ServerState) (sessionId : String) : Bool :=
  st.persisted.contains sessionId

/-- `createWhatsAppClient` (src/server.js:522-760).  `authOk = true` models
the success path: the auth state loads, `makeWASocket` constructs a client
(counted by `nextClient`), the handle is stored in `clients` and the status
becomes `connecting`.  `authOk = false` models the catch block for a failure
before construction: status becomes `error`, nothing else changes and no
Protocol Client is constructed. -/
def createWhatsAppClient (st : ServerState) (sessionId : String)
    (authOk : Bool) : ServerState :=
  if authOk then
    { st with
      clients := setA st.clients sessionId { token := st.nextClient, store := emptyStore }
      sessionStatus := setA st.sessionStatus sessionId "connecting"
      nextClient := st.nextClient + 1 }
  else
    { st with sessionStatus := setA st.sessionStatus sessionId "error" }

/-- The body of the reconnect `setTimeout` callback (src/server.js:615-621):
if the session status is still `reconnecting` when the 5000 ms timer fires,
drop the old handle and re-run `createWhatsAppClient` for the same session
id; otherwise do nothing at all. -/
def reconnectTimerFire (st : ServerState) (sessionId : String)
    (authOk : Bool) : ServerState :=
  if lookupA st.sessionStatus sessionId = some "reconnecting" then
    createWhatsAppClient
      { st with clients := eraseA st.clients sessionId } sessionId authOk
  else st

/-- Response shape of the session-command callbacks (`success`, optional
`status`, optional `error`). -/
structure CmdResp where
  success : Bool
  status : Option String := none
  error : Option String := none
deriving Repr, DecidableEq

/-- Subscriber notifications the logout handler can emit. -/
inductive Notif where
  | logoutSuccess (sessionId : String)
  | logoutError (sessionId : String) (error : String)
deriving Repr, DecidableEq

/-- The `generateQR` handler (src/server.js:767-785): a session id that
already has a live handle is answered with the current status and nothing
else happens; otherwise a client is created and plain success is reported. -/
def generateQR (st : ServerState) (sessionId : String) (authOk : Bool) :
    ServerState × CmdResp :=
  match lookupA st.clients sessionId with
  | some _ =>
    (st, { success := true, status := lookupA st.sessionStatus sessionId })
  | none =>
    (createWhatsAppClient st sessionId authOk, { success := true })

/-- The `reconnectSession` handler (src/server.js:788-811): without persisted
credentials the command fails with `Session does not exist` and changes
nothing; otherwise any live handle is discarded and a fresh client created. -/
def reconnectSession (st : ServerState) (sessionId : String) (authOk : Bool) :
    ServerState × CmdResp :=
  if sessionExists st sessionId then
    (createWhatsAppClient
      { st with clients := eraseA st.clients sessionId } sessionId authOk,
     { success := true })
  else
    (st, { success := false, error := some "Session does not exist" })

/-- The `logout` handler (src/server.js:1079-1112).  `logoutOk` models the
outcome of the external `clients[sessionId].logout()` call.  On success the
handle is removed, the persisted session folder deleted, the status set to
`logged_out` and `logoutSuccess` emitted.  On failure (the catch block) the
status is set to `error` and `logoutError` emitted — the handle stays in the
registry and the persisted folder is untouched.  Without a live handle only
`logoutError` with `Session not found` is emitted. -/
def logoutHandler (st : ServerState) (sessionId : String) (logoutOk : Bool) :
    ServerState × List Notif × CmdResp :=
  match lookupA st.clients sessionId with
  | some _ =>
    if logoutOk then
      let st1 : ServerState :=
        { st with
          clients := eraseA st.clients sessionId
          persisted := st.persisted.filter (fun x => x ≠ sessionId)
          sessionStatus := setA st.sessionStatus sessionId "logged_out" }
      (st1, [Notif.logoutSuccess sessionId], { success := true })
    else
      let st1 : ServerState :=
        { st with sessionStatus := setA st.sessionStatus sessionId "error" }
      (st1, [Notif.logoutError sessionId "logout failed"],
       { success := false, error := some "logout failed" })
  | none =>
    (st, [Notif.logoutError sessionId "Session not found"],
     { success := false, error := some "Session not found" })

/-- Response shape of the `getChats` callback. -/
structure ChatsResp where
  success : Bool
  error : Option String := none
  chats : List ChatSummary := []
deriving Repr, DecidableEq

/-- The `getChats` handler (src/server.js:832-938): no live handle means
failure with `Client not found`; otherwise the formatted chat list of the
handle's store is returned.  The best-effort `fetchChats` warm-up only
triggers external events and is not a store mutation here. -/
def getChats (st : ServerState) (sessionId : String) : ChatsResp :=
  match lookupA st.clients sessionId with
  | none => { success := false, error := some "Client not found" }
  | some cl => { success := true, chats := listChats cl.store }

/-- Response shape of the `getChatMessages` callback. -/
structure MsgsResp where
  success : Bool
  error : Option String := none
  messages : List MsgSummary := []
deriving Repr, DecidableEq

/-- The mark-as-read preamble of the `getChatMessages` handler
(src/server.js:954-966): when the external `readMessages` call succeeds
(`readOk`), the chat's unread count is zeroed if the chat record exists. -/
def markReadStore (store : Store) (jid : String) (readOk : Bool) : Store :=
  if readOk then
    match lookupA store.chats jid with
    | some chat =>
      let cleared : Chat := { chat with unreadCount := some 0 }
      { store with chats := setA store.chats jid cleared }
    | none => store
  else store

/-- The fetch-if-empty step of the `getChatMessages` handler
(src/server.js:971-994): when the store holds no messages for the
conversation, the external `fetchMessagesFromWA` result (`none` = the call
threw and was logged) replaces the stored sequence. -/
def fetchIfEmpty (store : Store) (jid : String)
    (fetchRes : Option (List Msg)) : Store :=
  if ((lookupA store.messages jid).getD []).isEmpty then
    match fetchRes with
    | some fetched => { store with messages := setA store.messages jid fetched }
    | none => store
  else store

/-- The `getChatMessages` handler (src/server.js:941-1046): no live handle
means failure with `Client not found`; otherwise mark-as-read and
fetch-if-empty run, and the handler answers success with the (possibly
empty) formatted, timestamp-sorted message sequence. -/
def getChatMessages (st : ServerState) (sessionId jid : String)
    (readOk : Bool) (fetchRes : Option (List Msg)) :
    ServerState × MsgsResp :=
  match lookupA st.clients sessionId with
  | none => (st, { success := false, error := some "Client not found" })
  | some cl =>
    let store1 := fetchIfEmpty (markReadStore cl.store jid readOk) jid fetchRes
    let st1 : ServerState :=
      { st with clients := setA st.clients sessionId { cl with store := store1 } }
    let msgs := (lookupA store1.messages jid).getD []
    if msgs.isEmpty then (st1, { success := true, messages := [] })
    else (st1, { success := true, messages := sortLe msgLe (msgs.map formatMsg) })

/-- Modelled from the spec's words for claim C7 (the claimed universal
precedence): explicit chat-record name hint, else contact `name`, else
contact `notify`, else the local part of the conversation id — with no
dependence on the id's domain.  Used only to compare with the source's
`resolveChatName`. -/
def specNamePrecedence (st : Store) (chat : Chat) : String :=
  if strTruthy chat.name then chat.name.getD ""
  else
    match lookupA st.contacts chat.id with
    | some contact =>
      if strTruthy contact.name then contact.name.getD ""
      else if strTruthy contact.notify then contact.notify.getD ""
      else formatPhoneNumber chat.id
    | none => formatPhoneNumber chat.id

/-- Claim C7 as stated, as a predicate on a store: every chat summary's
displayed name equals the claimed hint/contact/local-part precedence. -/
def nameClaimHolds (st : Store) : Prop :=
  ∀ p ∈ st.chats, p.2.id ≠ "status@broadcast" →
    (formatChat st p.2).map (fun c => c.name) = some (specNamePrecedence st p.2)

/-- Timestamp of the most recently appended message of a conversation
(`0` when there is none or it carries no timestamp). -/
def lastTsOf (st : Store) (jid : String) : Nat :=
  match ((lookupA st.messages jid).getD []).getLast? with
  | some m => m.messageTimestamp.getD 0
  | none => 0

/-- Claim C5 as stated, as a predicate on a store: in the returned chat list,
any chat listed before another has a most-recent-message timestamp at least
as late. -/
def chatOrderClaimHolds (st : Store) : Prop :=
  (listChats st).Pairwise (fun a b => lastTsOf st b.jid ≤ lastTsOf st a.jid)

theorem charListLt_asymm : ∀ {a b : List Char},
    charListLt a b = true → charListLt b a = false := by
  intro a
  induction a with
  | nil =>
    intro b h
    cases b with
    | nil => simpa [charListLt] using h
    | cons y ys => simp [charListLt]
  | cons x xs ih =>
    intro b h
    cases b with
    | nil => simpa [charListLt] using h
    | cons y ys =>
      by_cases hxy : x = y
      · subst hxy
        simp only [charListLt, if_pos rfl] at h ⊢
        exact ih h
      · simp only [charListLt, if_neg hxy] at h
        have hlt : x < y := of_decide_eq_true h
        have hyx : y ≠ x := fun hh => hxy hh.symm
        simp only [charListLt, if_neg hyx]
        exact decide_eq_false (not_lt_of_gt hlt)

theorem charListLt_trans : ∀ {a b c : List Char},
    charListLt a b = true → charListLt b c = true → charListLt a c = true := by
  intro a
  induction a with
  | nil =>
    intro b c hab hbc
    cases b with
    | nil => simpa [charListLt] using hab
    | cons y ys =>
      cases c with
      | nil => simpa [charListLt] using hbc
      | cons z zs => simp [charListLt]
  | cons x xs ih =>
    intro b c hab hbc
    cases b with
    | nil => simpa [charListLt] using hab
    | cons y ys =>
      cases c with
      | nil => simpa [charListLt] using hbc
      | cons z zs =>
        by_cases hxy : x = y
        · subst hxy
          simp only [charListLt, if_pos rfl] at hab
          by_cases hyz : x = z
          · subst hyz
            simp only [charListLt, if_pos rfl] at hbc ⊢
            exact ih hab hbc
          · simp only [charListLt, if_neg hyz] at hbc ⊢
            exact hbc
        · by_cases hyz : y = z
          · subst hyz
            simp only [charListLt, if_neg hxy] at hab ⊢
            exact hab
          · simp only [charListLt, if_neg hxy] at hab
            simp only [charListLt, if_neg hyz] at hbc
            have hxz : x < z := lt_trans (of_decide_eq_true hab) (of_decide_eq_true hbc)
            have hne : x ≠ z := ne_of_lt hxz
            simp only [charListLt, if_neg hne]
            exact decide_eq_true hxz

theorem charListLt_conn : ∀ {a b : List Char},
    charListLt a b = false → charListLt b a = true ∨ a = b := by
  intro a
  induction a with
  | nil =>
    intro b h
    cases b with
    | nil => exact Or.inr rfl
    | cons y ys => simpa [charListLt] using h
  | cons x xs ih =>
    intro b h
    cases b with
    | nil => exact Or.inl (by simp [charListLt])
    | cons y ys =>
      by_cases hxy : x = y
      · subst hxy
        simp only [charListLt, if_pos rfl] at h
        rcases ih h with h' | h'
        · exact Or.inl (by simpa [charListLt] using h')
        · exact Or.inr (by rw [h'])
      · simp only [charListLt, if_neg hxy] at h
        have hnlt : ¬ x < y := of_decide_eq_false h
        have hyx : y < x := lt_of_le_of_ne (not_lt.mp hnlt) (fun hh => hxy hh.symm)
        have hne : y ≠ x := fun hh => hxy hh.symm
        refine Or.inl ?_
        simp only [charListLt, if_neg hne]
        exact decide_eq_true hyx

theorem lookupA_setA_self {α : Type} (l : List (String × α)) (k : String)
    (v : α) : lookupA (setA l k v) k = some v := by
  induction l with
  | nil => simp [setA, lookupA]
  | cons p rest ih =>
    by_cases h : p.1 = k
    · simp [setA, h, lookupA]
    · simp [setA, h, lookupA, ih]

theorem lookupA_setA_ne {α : Type} (l : List (String × α)) (k k' : String)
    (v : α) (h : k' ≠ k) : lookupA (setA l k v) k' = lookupA l k' := by
  induction l with
  | nil =>
    simp only [setA, lookupA]
    rw [if_neg (fun hh => h (Eq.symm hh))]
  | cons p rest ih =>
    by_cases hp : p.1 = k
    · subst hp
      simp only [setA, if_pos rfl, lookupA]
      rw [if_neg (fun hh => h (Eq.symm hh)), if_neg (fun hh => h (Eq.symm hh))]
    · simp only [setA, if_neg hp, lookupA]
      by_cases hp' : p.1 = k'
      · simp [hp']
      · simp [hp', ih]

theorem lookupA_eraseA_self {α : Type} (l : List (String × α)) (k : String) :
    lookupA (eraseA l k) k = none := by
  induction l with
  | nil => rfl
  | cons p rest ih =>
    by_cases h : p.1 = k
    · simpa [eraseA, h] using ih
    · simpa [eraseA, h, lookupA] using ih

theorem mem_insertLe {α : Type} (le : α → α → Bool) (a c : α)
    (l : List α) : c ∈ insertLe le a l ↔ c = a ∨ c ∈ l := by
  induction l with
  | nil => simp [insertLe]
  | cons b l ih =>
    by_cases h : le a b
    · simp [insertLe, h]
    · simp [insertLe, h, ih]
      tauto

theorem mem_sortLe {α : Type} (le : α → α → Bool) (c : α)
    (l : List α) : c ∈ sortLe le l ↔ c ∈ l := by
  induction l with
  | nil => simp [sortLe]
  | cons a l ih => simp [sortLe, mem_insertLe, ih]

theorem pairwise_insertLe {α : Type} (le : α → α → Bool) (R : α → α → Prop)
    (h1 : ∀ a b, le a b = false → R b a)
    (h3 : ∀ a b, le a b = true → R a b)
    (h2 : ∀ a b c, le a b = true → R b c → R a c)
    (a : α) (l : List α) (hl : l.Pairwise R) :
    (insertLe le a l).Pairwise R := by
  induction l with
  | nil => simp [insertLe]
  | cons b l ih =>
    rcases List.pairwise_cons.mp hl with ⟨hb, hl'⟩
    by_cases h : le a b
    · simp only [insertLe, if_pos h]
      refine List.pairwise_cons.mpr ⟨?_, hl⟩
      intro c hc
      rcases List.mem_cons.mp hc with hcb | hcl
      · exact hcb ▸ h3 a b h
      · exact h2 a b c h (hb c hcl)
    · simp only [insertLe, if_neg h]
      refine List.pairwise_cons.mpr ⟨?_, ih hl'⟩
      intro c hc
      rcases (mem_insertLe le a c l).mp hc with hca | hcl
      · exact hca ▸ h1 a b (Bool.eq_false_iff.mpr h)
      · exact hb c hcl

theorem pairwise_sortLe {α : Type} (le : α → α → Bool) (R : α → α → Prop)
    (h1 : ∀ a b, le a b = false → R b a)
    (h3 : ∀ a b, le a b = true → R a b)
    (h2 : ∀ a b c, le a b = true → R b c → R a c)
    (l : List α) : (sortLe le l).Pairwise R := by
  induction l with
  | nil => simp [sortLe]
  | cons a l ih => exact pairwise_insertLe le R h1 h3 h2 a (sortLe le l) ih

theorem ingest_dup_noop (st : Store) (m : Msg)
    (h : hasMsgId st m.key.remoteJid m.key.id = true) :
    ingestMessage st m = st := by
  unfold ingestMessage
  by_cases hbc : m.key.remoteJid = "status@broadcast"
  · rw [if_pos hbc]
  · rw [if_neg hbc, if_pos h]

theorem ingest_messages_self (st : Store) (m : Msg)
    (hbc : m.key.remoteJid ≠ "status@broadcast")
    (hdup : hasMsgId st m.key.remoteJid m.key.id = false) :
    lookupA (ingestMessage st m).messages m.key.remoteJid =
      some ((lookupA st.messages m.key.remoteJid).getD [] ++ [m]) := by
  unfold ingestMessage
  rw [if_neg hbc, if_neg (by simp [hdup])]
  rcases hc : lookupA st.chats m.key.remoteJid with _ | chat <;>
    simp [hc, lookupA_setA_self]

theorem ingest_messages_other (st : Store) (m : Msg) (jid : String)
    (hj : jid ≠ m.key.remoteJid) :
    lookupA (ingestMessage st m).messages jid = lookupA st.messages jid := by
  unfold ingestMessage
  by_cases hbc : m.key.remoteJid = "status@broadcast"
  · rw [if_pos hbc]
  · rw [if_neg hbc]
    by_cases hdup : hasMsgId st m.key.remoteJid m.key.id
    · rw [if_pos hdup]
    · rw [if_neg hdup]
      rcases hc : lookupA st.chats m.key.remoteJid with _ | chat <;>
        simp [hc, lookupA_setA_ne _ _ _ _ hj]

theorem hasMsgId_false_count (st : Store) (jid i : String)
    (h : hasMsgId st jid i = false) : msgIdCount st jid i = 0 := by
  unfold hasMsgId at h
  unfold msgIdCount
  simp only [List.any_eq_false, decide_eq_true_eq] at h
  have e : ((lookupA st.messages jid).getD []).filter
      (fun m => m.key.id = i) = [] := by
    rw [List.filter_eq_nil_iff]
    intro a ha
    simpa using h a ha
  simp [e]

theorem hasMsgId_true_count (st : Store) (jid i : String)
    (h : hasMsgId st jid i = true) : 1 ≤ msgIdCount st jid i := by
  unfold hasMsgId at h
  unfold msgIdCount
  simp only [List.any_eq_true, decide_eq_true_eq] at h
  rcases h with ⟨x, hx, hxi⟩
  have : x ∈ ((lookupA st.messages jid).getD []).filter
      (fun m => m.key.id = i) := by
    simp [List.mem_filter, hx, hxi]
  exact List.length_pos.mpr (fun hnil => by simp [hnil] at this)

theorem ingest_preserves_nodup (st : Store) (m : Msg)
    (h : storeMsgIdsNodup st) : storeMsgIdsNodup (ingestMessage st m) := by
  intro jid
  by_cases hbc : m.key.remoteJid = "status@broadcast"
  · have e : ingestMessage st m = st := by unfold ingestMessage; rw [if_pos hbc]
    rw [e]
    exact h jid
  · rcases hdup : hasMsgId st m.key.remoteJid m.key.id with _ | _
    · by_cases hj : jid = m.key.remoteJid
      · subst hj
        rw [ingest_messages_self st m hbc hdup]
        simp only [Option.getD_some, List.map_append, List.map_cons, List.map_nil]
        rw [List.nodup_append]
        refine ⟨h _, List.nodup_singleton _, ?_⟩
        intro a ha hb
        simp only [List.mem_singleton] at hb
        subst hb
        rcases List.mem_map.mp ha with ⟨x, hx, hxi⟩
        unfold hasMsgId at hdup
        simp only [List.any_eq_false, decide_eq_true_eq] at hdup
        exact hdup x hx hxi
      · rw [ingest_messages_other st m jid hj]
        exact h jid
    · rw [ingest_dup_noop st m hdup]
      exact h jid

theorem foldl_ingest_nodup : ∀ (ms : List Msg) (st : Store),
    storeMsgIdsNodup st → storeMsgIdsNodup (ms.foldl ingestMessage st) := by
  intro ms
  induction ms with
  | nil => intro st h; exact h
  | cons m ms ih =>
    intro st h
    exact ih (ingestMessage st m) (ingest_preserves_nodup st m h)

/-- Shorthand for building a message with a timestamp. -/
def mkMsg (i jid : String) (fromMe : Bool) (ts : Nat) : Msg :=
  { key := { id := i, remoteJid := jid, fromMe := fromMe }
    messageTimestamp := some ts }

/-- Example server state: one live session `s1` whose connection was lost and
superseded by a logout before the reconnect timer fired. -/
def exLoggedOut : ServerState :=
  { clients := []
    sessionStatus := [("s1", "logged_out")]
    persisted := ["s1"]
    nextClient := 1 }

/-- Example server state: one live, connected session `s1`. -/
def exLive : ServerState :=
  { clients := [("s1", { token := 0, store := emptyStore })]
    sessionStatus := [("s1", "connected")]
    persisted := ["s1"]
    nextClient := 1 }

/-- C1: if the 5000 ms reconnect timer fires when the session's status is no
longer `reconnecting`, the callback does nothing — no Protocol Client is
constructed and neither the status map nor the registry changes (the whole
state is untouched); if the status is still `reconnecting`, the old handle is
removed and the session-creation procedure re-runs for the same session id. -/
theorem reconnectTimer_noop_or_recreate :
    (∀ (st : ServerState) (sessionId : String) (authOk : Bool),
      lookupA st.sessionStatus sessionId ≠ some "reconnecting" →
      reconnectTimerFire st sessionId authOk = st) ∧
    (∀ (st : ServerState) (sessionId : String) (authOk : Bool),
      lookupA st.sessionStatus sessionId = some "reconnecting" →
      reconnectTimerFire st sessionId authOk =
        createWhatsAppClient
          { st with clients := eraseA st.clients sessionId } sessionId authOk) := by
  constructor
  · intro st sessionId authOk h
    unfold reconnectTimerFire
    rw [if_neg h]
  · intro st sessionId authOk h
    unfold reconnectTimerFire
    rw [if_pos h]

theorem reconnectTimer_noop_or_recreate_witness :
    lookupA exLoggedOut.sessionStatus "s1" ≠ some "reconnecting" ∧
    reconnectTimerFire exLoggedOut "s1" true = exLoggedOut :=
  ⟨by decide, reconnectTimer_noop_or_recreate.1 exLoggedOut "s1" true (by decide)⟩

/-- C8: `reconnectSession` on a session id with no persisted credentials
(`sessionExists` consults the sessions directory, not the in-memory registry)
fails with the session-not-found error and returns the state unchanged — in
particular no Protocol Client is constructed and the registry is untouched. -/
theorem reconnectSession_no_creds :
    ∀ (st : ServerState) (sessionId : String) (authOk : Bool),
      sessionExists st sessionId = false →
      reconnectSession st sessionId authOk =
        (st, { success := false, error := some "Session does not exist" }) := by
  intro st sessionId authOk h
  unfold reconnectSession
  rw [if_neg (by simp [h])]

theorem reconnectSession_no_creds_witness :
    sessionExists exLive "s2" = false ∧
    reconnectSession exLive "s2" true =
      (exLive, { success := false, error := some "Session does not exist" }) :=
  ⟨by decide, reconnectSession_no_creds exLive "s2" true (by decide)⟩

/-- C9: `generateQR` (the create-session command) is idempotent for an id
that already has a live handle: it answers with the session's current status
and leaves the state untouched, and a second call in succession does the
same — no second Protocol Client is constructed. -/
theorem generateQR_idempotent :
    ∀ (st : ServerState) (sessionId : String) (ok1 ok2 : Bool),
      (lookupA st.clients sessionId).isSome = true →
      generateQR st sessionId ok1 =
        (st, { success := true, status := lookupA st.sessionStatus sessionId }) ∧
      generateQR (generateQR st sessionId ok1).1 sessionId ok2 =
        (st, { success := true, status := lookupA st.sessionStatus sessionId }) := by
  intro st sessionId ok1 ok2 h
  rcases hcl : lookupA st.clients sessionId with _ | cl
  · rw [hcl] at h
    simp at h
  · have h1 : generateQR st sessionId ok1 =
        (st, { success := true, status := lookupA st.sessionStatus sessionId }) := by
      unfold generateQR
      rw [hcl]
    refine ⟨h1, ?_⟩
    rw [h1]
    unfold generateQR
    rw [hcl]

theorem generateQR_idempotent_witness :
    (lookupA exLive.clients "s1").isSome = true ∧
    generateQR exLive "s1" true =
      (exLive, { success := true, status := some "connected" }) :=
  ⟨by decide, (generateQR_idempotent exLive "s1" true true (by decide)).1⟩

/-- C4 counterexample: with a live handle for `s1`, a failing logout call
leaves the handle in the registry — refuting the claim that on failure "the
handle is still removed from the active registry". -/
theorem logout_failure_retains_handle_cex :
    ¬ (lookupA ((logoutHandler exLive "s1" false).1).clients "s1" = none) := by
  decide

/-- C4 amended: for the explicit logout command on a session with a live
handle, both outcomes notify the subscriber (`logoutSuccess` on success,
`logoutError` on failure) and persisted credentials are deleted only on
confirmed success; but on failure the handle is NOT removed from the
registry — `clients` (and the persisted storage) are left exactly as they
were, with only the status set to `error`. -/
theorem logout_outcomes :
    ∀ (st : ServerState) (sessionId : String),
      (lookupA st.clients sessionId).isSome = true →
      ((logoutHandler st sessionId true).2.1 = [Notif.logoutSuccess sessionId] ∧
       lookupA ((logoutHandler st sessionId true).1).clients sessionId = none ∧
       sessionId ∉ ((logoutHandler st sessionId true).1).persisted) ∧
      ((logoutHandler st sessionId false).2.1 =
         [Notif.logoutError sessionId "logout failed"] ∧
       ((logoutHandler st sessionId false).1).clients = st.clients ∧
       ((logoutHandler st sessionId false).1).persisted = st.persisted) := by
  intro st sessionId h
  rcases hcl : lookupA st.clients sessionId with _ | cl
  · rw [hcl] at h
    simp at h
  · refine ⟨⟨?_, ?_, ?_⟩, ?_, ?_, ?_⟩
    · simp [logoutHandler, hcl]
    · simp [logoutHandler, hcl, lookupA_eraseA_self]
    · simp [logoutHandler, hcl, List.mem_filter]
    · simp [logoutHandler, hcl]
    · simp [logoutHandler, hcl]
    · simp [logoutHandler, hcl]

theorem logout_outcomes_witness :
    (lookupA exLive.clients "s1").isSome = true ∧
    lookupA ((logoutHandler exLive "s1" true).1).clients "s1" = none ∧
    ((logoutHandler exLive "s1" false).1).clients = exLive.clients :=
  ⟨by decide, ((logout_outcomes exLive "s1" (by decide)).1).2.1,
    ((logout_outcomes exLive "s1" (by decide)).2).2.1⟩

/-- C2 scenario store: three inbound messages and one self message ingested
into conversation `777@s.whatsapp.net`. -/
def exInbox : Store :=
  [mkMsg "i1" "777@s.whatsapp.net" false 10,
   mkMsg "i2" "777@s.whatsapp.net" false 11,
   mkMsg "i3" "777@s.whatsapp.net" false 12,
   mkMsg "i4" "777@s.whatsapp.net" true 13].foldl ingestMessage emptyStore

/-- C2: each accepted (non-duplicate, non-broadcast) inbound message with
`fromMe = false` raises the conversation's unread count by exactly one while
a self message leaves it unchanged; a freshly created conversation record
starts at `1` for an inbound first message and `0` for a self message; a
`READ` acknowledgment resets the count to `0`; and in the concrete scenario,
after three inbound and one self message the count is `3`, after the read
acknowledgment `0`, and after one more inbound message `1`. -/
theorem unreadCount_tracking :
    (∀ (st : Store) (m : Msg),
      m.key.remoteJid ≠ "status@broadcast" →
      hasMsgId st m.key.remoteJid m.key.id = false →
      unreadOf (ingestMessage st m) m.key.remoteJid =
        (if m.key.fromMe then unreadOf st m.key.remoteJid
         else unreadOf st m.key.remoteJid + 1)) ∧
    (∀ (st : Store) (m : Msg),
      m.key.remoteJid ≠ "status@broadcast" →
      hasMsgId st m.key.remoteJid m.key.id = false →
      lookupA st.chats m.key.remoteJid = none →
      lookupA (ingestMessage st m).chats m.key.remoteJid =
        some { id := m.key.remoteJid
               conversationTimestamp := m.messageTimestamp
               unreadCount := some (if m.key.fromMe then 0 else 1) }) ∧
    (∀ (st : Store) (jid : String), jid ≠ "status@broadcast" →
      unreadOf (applyReadStatus st jid (some "READ")) jid = 0) ∧
    (unreadOf exInbox "777@s.whatsapp.net" = 3 ∧
     unreadOf (applyReadStatus exInbox "777@s.whatsapp.net" (some "READ"))
       "777@s.whatsapp.net" = 0 ∧
     unreadOf (ingestMessage
        (applyReadStatus exInbox "777@s.whatsapp.net" (some "READ"))
        (mkMsg "i5" "777@s.whatsapp.net" false 14)) "777@s.whatsapp.net" = 1) := by
  refine ⟨?_, ?_, ?_, by decide, by decide, by decide⟩
  · intro st m h1 h2
    rcases hc : lookupA st.chats m.key.remoteJid with _ | chat <;>
      rcases hfm : m.key.fromMe <;>
        simp [ingestMessage, h1, h2, hc, hfm, unreadOf, lookupA_setA_self]
  · intro st m h1 h2 hc
    rcases hfm : m.key.fromMe <;>
      simp [ingestMessage, h1, h2, hc, hfm, lookupA_setA_self]
  · intro st jid h
    unfold applyReadStatus
    rw [if_neg h, if_pos rfl]
    rcases hc : lookupA st.chats jid with _ | chat
    · simp [unreadOf, hc]
    · simp [unreadOf, lookupA_setA_self]

theorem unreadCount_tracking_witness :
    (("888@s.whatsapp.net" : String) ≠ "status@broadcast" ∧
      hasMsgId emptyStore "888@s.whatsapp.net" "m1" = false) ∧
    unreadOf (ingestMessage emptyStore (mkMsg "m1" "888@s.whatsapp.net" false 5))
        "888@s.whatsapp.net" =
      (if (mkMsg "m1" "888@s.whatsapp.net" false 5).key.fromMe then
        unreadOf emptyStore "888@s.whatsapp.net"
       else unreadOf emptyStore "888@s.whatsapp.net" + 1) :=
  ⟨⟨by decide, by decide⟩,
    unreadCount_tracking.1 emptyStore (mkMsg "m1" "888@s.whatsapp.net" false 5)
      (by decide) (by decide)⟩

/-- Store holding one copy of message `i1` in conversation `777@s.whatsapp.net`. -/
def exOneMsg : Store :=
  ingestMessage emptyStore (mkMsg "i1" "777@s.whatsapp.net" false 10)

/-- C3: ingesting a message whose id already exists in that conversation is a
no-op on the whole store; ingesting two messages with the same id into the
same conversation leaves exactly one record with that id (starting from any
store that does not already hold two); a single ingestion preserves the
no-duplicate-ids invariant; and every store reached by ingesting any message
sequence into the empty store satisfies it. -/
theorem ingestMessage_dedup :
    (∀ (st : Store) (m : Msg),
      hasMsgId st m.key.remoteJid m.key.id = true →
      ingestMessage st m = st) ∧
    (∀ (st : Store) (m1 m2 : Msg),
      m2.key.remoteJid = m1.key.remoteJid → m2.key.id = m1.key.id →
      m1.key.remoteJid ≠ "status@broadcast" →
      msgIdCount st m1.key.remoteJid m1.key.id ≤ 1 →
      msgIdCount (ingestMessage (ingestMessage st m1) m2)
        m1.key.remoteJid m1.key.id = 1) ∧
    (∀ (st : Store) (m : Msg),
      storeMsgIdsNodup st → storeMsgIdsNodup (ingestMessage st m)) ∧
    (∀ ms : List Msg, storeMsgIdsNodup (ms.foldl ingestMessage emptyStore)) := by
  refine ⟨ingest_dup_noop, ?_, ingest_preserves_nodup, ?_⟩
  · intro st m1 m2 hjid hid hbc hcnt
    rcases hdup : hasMsgId st m1.key.remoteJid m1.key.id with _ | _
    · have hmsgs1 := ingest_messages_self st m1 hbc hdup
      have hdup2 : hasMsgId (ingestMessage st m1) m2.key.remoteJid
          m2.key.id = true := by
        rw [hjid, hid]
        unfold hasMsgId
        rw [hmsgs1]
        simp
      rw [ingest_dup_noop _ m2 hdup2]
      have hc0 := hasMsgId_false_count st m1.key.remoteJid m1.key.id hdup
      unfold msgIdCount at hc0 ⊢
      rw [hmsgs1]
      simp only [Option.getD_some, List.filter_append, List.length_append]
      rw [hc0]
      simp
    · have e1 : ingestMessage st m1 = st := ingest_dup_noop st m1 hdup
      have hdup2 : hasMsgId st m2.key.remoteJid m2.key.id = true := by
        rw [hjid, hid]
        exact hdup
      rw [e1, ingest_dup_noop st m2 hdup2]
      have := hasMsgId_true_count st m1.key.remoteJid m1.key.id hdup
      omega
  · intro ms
    exact foldl_ingest_nodup ms emptyStore (by intro jid; simp [emptyStore, lookupA])

theorem ingestMessage_dedup_witness :
    hasMsgId exOneMsg "777@s.whatsapp.net" "i1" = true ∧
    ingestMessage exOneMsg (mkMsg "i1" "777@s.whatsapp.net" false 99) = exOneMsg :=
  ⟨by decide,
    ingestMessage_dedup.1 exOneMsg (mkMsg "i1" "777@s.whatsapp.net" false 99)
      (by decide)⟩

/-- The precedence the source actually implements, written out per id
domain: a truthy chat-record name wins; otherwise private-chat ids
(`@s.whatsapp.net`) resolve via contact `name`, then contact `notify`, then
the id's local part; group ids (`@g.us`) resolve via `chat.subject`, then
the literal `Group`; all remaining ids resolve to the id's local part. -/
def domainAwareName (st : Store) (chat : Chat) : String :=
  if strTruthy chat.name then chat.name.getD ""
  else if strEndsWith chat.id "@s.whatsapp.net" then
    match lookupA st.contacts chat.id with
    | some contact =>
      if strTruthy contact.name then contact.name.getD ""
      else if strTruthy contact.notify then contact.notify.getD ""
      else formatPhoneNumber chat.id
    | none => formatPhoneNumber chat.id
  else if strEndsWith chat.id "@g.us" then
    (if strTruthy chat.subject then chat.subject.getD "" else "Group")
  else formatPhoneNumber chat.id

theorem resolve_eq_domainAware (st : Store) (chat : Chat) :
    resolveChatName st chat = domainAwareName st chat := by
  unfold resolveChatName domainAwareName strOrD
  by_cases h1 : strTruthy chat.name
  · have hne : chat.name.getD "" ≠ "" := by simpa [strTruthy] using h1
    simp [h1, hne]
  · by_cases h2 : strEndsWith chat.id "@s.whatsapp.net"
    · rcases hct : lookupA st.contacts chat.id with _ | ct
      · by_cases h5 : formatPhoneNumber chat.id = "" <;>
          simp [h1, h2, hct, h5]
      · by_cases h3 : strTruthy ct.name
        · have hne : ct.name.getD "" ≠ "" := by simpa [strTruthy] using h3
          simp [h1, h2, hct, h3, hne]
        · by_cases h4 : strTruthy ct.notify
          · have hne : ct.notify.getD "" ≠ "" := by simpa [strTruthy] using h4
            simp [h1, h2, hct, h3, h4, hne]
          · by_cases h5 : formatPhoneNumber chat.id = "" <;>
              simp [h1, h2, hct, h3, h4, h5]
    · by_cases h6 : strEndsWith chat.id "@g.us"
      · by_cases h7 : strTruthy chat.subject
        · have hne : chat.subject.getD "" ≠ "" := by simpa [strTruthy] using h7
          simp [h1, h2, h6, h7, hne]
        · simp [h1, h2, h6, h7]
      · by_cases h5 : formatPhoneNumber chat.id = "" <;>
          simp [h1, h2, h6, h5]

theorem formatChat_jid (st : Store) (chat : Chat) (c : ChatSummary)
    (h : formatChat st chat = some c) :
    chat.id ≠ "status@broadcast" ∧ c.jid = chat.id := by
  unfold formatChat at h
  by_cases hbc : chat.id = "status@broadcast"
  · rw [if_pos hbc] at h
    cases h
  · rw [if_neg hbc] at h
    simp only [Option.some.injEq] at h
    exact ⟨hbc, by rw [← h]⟩

/-- Example store where messages for the reserved broadcast pseudo-id were
ingested and a broadcast chat record even exists (as a `chats.set` event
could create). -/
def exBroadcastStore : Store :=
  [mkMsg "x1" "status@broadcast" false 50,
   mkMsg "y1" "42@s.whatsapp.net" false 60].foldl ingestMessage
    { chats := [("status@broadcast", { id := "status@broadcast" })] }

/-- Server state exposing `exBroadcastStore` through a live session `s1`. -/
def exBroadcastSrv : ServerState :=
  { clients := [("s1", { token := 0, store := exBroadcastStore })]
    sessionStatus := [("s1", "connected")]
    persisted := ["s1"]
    nextClient := 1 }

/-- C6: the reserved `status@broadcast` pseudo-conversation never appears in
the chat list the `getChats` handler returns, for every server state —
including stores where broadcast messages were ingested or a broadcast chat
record exists. -/
theorem chatList_excludes_broadcast :
    ∀ (st : ServerState) (sessionId : String) (c : ChatSummary),
      c ∈ (getChats st sessionId).chats → c.jid ≠ "status@broadcast" := by
  intro st sessionId c hc
  unfold getChats at hc
  rcases hcl : lookupA st.clients sessionId with _ | cl
  · rw [hcl] at hc
    simp at hc
  · rw [hcl] at hc
    simp only at hc
    unfold listChats at hc
    rw [mem_sortLe] at hc
    rcases List.mem_filterMap.mp hc with ⟨o, ho, hoc⟩
    rcases List.mem_map.mp ho with ⟨p, _, hpo⟩
    have hfc : formatChat cl.store p.2 = some c := by
      rw [hpo]
      exact hoc
    rcases formatChat_jid cl.store p.2 c hfc with ⟨hne, hjid⟩
    rw [hjid]
    exact hne

theorem chatList_excludes_broadcast_witness :
    ({ jid := "42@s.whatsapp.net", name := "42", lastMessage := "Media message",
       time := "00:01", unread := 1 } : ChatSummary) ∈
        (getChats exBroadcastSrv "s1").chats ∧
    ({ jid := "42@s.whatsapp.net", name := "42", lastMessage := "Media message",
       time := "00:01", unread := 1 } : ChatSummary).jid ≠ "status@broadcast" :=
  ⟨by decide,
    chatList_excludes_broadcast exBroadcastSrv "s1" _ (by decide)⟩

/-- Example store for the name-precedence counterexample: a group chat with
no name hint and no subject, and no contact record. -/
def exGroupChat : Store :=
  { chats := [("123@g.us", { id := "123@g.us" })] }

/-- C7 counterexample: in `exGroupChat` the displayed name is `Group`, not
the local part `123` the claimed hint/contact/local-part precedence demands,
so the claim as stated fails. -/
theorem name_precedence_claim_cex : ¬ nameClaimHolds exGroupChat := by
  unfold nameClaimHolds
  decide

/-- C7 amended: the displayed name follows a precedence that depends on the
id's domain — truthy chat-record name first; for `@s.whatsapp.net` ids then
contact name, contact notify alias, local part of the id; for `@g.us` ids
then the chat subject, else `Group`; for all other ids the local part (so
the claim's two concrete examples hold: a private chat whose contact has
only `notify = Bob` resolves to `Bob`, and `12345@domain` with no contact
resolves to `12345`). -/
theorem chatName_domain_precedence :
    ∀ (st : Store) (chat : Chat), chat.id ≠ "status@broadcast" →
      (formatChat st chat).map (fun c => c.name) =
        some (domainAwareName st chat) := by
  intro st chat h
  unfold formatChat
  rw [if_neg h]
  simp [resolve_eq_domainAware]

/-- Example store for the `Bob` case: a private chat whose contact record has
only a `notify` alias. -/
def exBobStore : Store :=
  { chats := [("555@s.whatsapp.net", { id := "555@s.whatsapp.net" })]
    contacts :=
      [("555@s.whatsapp.net",
        { id := "555@s.whatsapp.net", notify := some "Bob" })] }

theorem chatName_domain_precedence_witness :
    (("555@s.whatsapp.net" : String) ≠ "status@broadcast" ∧
      ("12345@domain" : String) ≠ "status@broadcast") ∧
    (formatChat exBobStore { id := "555@s.whatsapp.net" }).map
        (fun c => c.name) =
      some (domainAwareName exBobStore { id := "555@s.whatsapp.net" }) ∧
    (formatChat exBobStore { id := "12345@domain" }).map (fun c => c.name) =
      some (domainAwareName exBobStore { id := "12345@domain" }) ∧
    domainAwareName exBobStore { id := "555@s.whatsapp.net" } = "Bob" ∧
    domainAwareName exBobStore { id := "12345@domain" } = "12345" :=
  ⟨⟨by decide, by decide⟩,
    chatName_domain_precedence exBobStore { id := "555@s.whatsapp.net" } (by decide),
    chatName_domain_precedence exBobStore { id := "12345@domain" } (by decide),
    by decide, by decide⟩

/-- Example store whose two conversations' last messages straddle a day
boundary: `a@s.whatsapp.net` last hears at epoch second 82800 (23:00),
`b@s.whatsapp.net` at 90000 (01:00 the next day). -/
def exDayBoundary : Store :=
  [mkMsg "a1" "a@s.whatsapp.net" false 82800,
   mkMsg "b1" "b@s.whatsapp.net" false 90000].foldl ingestMessage emptyStore

/-- C5 counterexample: in `exDayBoundary` the chat whose last message is
older (timestamp 82800, formatted `23:00`) is listed before the chat whose
last message is newer (timestamp 90000, formatted `01:00`), because the sort
compares the formatted time-of-day strings lexically — refuting the claimed
most-recent-timestamp-first ordering. -/
theorem chatOrder_claim_cex : ¬ chatOrderClaimHolds exDayBoundary := by
  unfold chatOrderClaimHolds
  decide

/-- C5 amended: the chat list is ordered by descending formatted time-of-day
string (the `localeCompare`-based comparator), chats without a time last:
whenever a chat with a nonempty time string follows another entry, the
earlier entry also has a nonempty time string that is lexically no smaller.
This coincides with most-recent-first only while the formatted strings order
like the timestamps (it fails across day boundaries, see the
counterexample). -/
theorem listChats_sorted_by_time_string :
    ∀ st : Store,
      (listChats st).Pairwise
        (fun a b => b.time ≠ "" →
          a.time ≠ "" ∧ strLtb a.time b.time = false) := by
  intro st
  unfold listChats
  apply pairwise_sortLe
  · intro a b h
    unfold chatLe at h
    by_cases ha : a.time = ""
    · intro hne
      exact absurd ha hne
    · rw [if_neg ha] at h
      by_cases hb : b.time = ""
      · rw [if_pos hb] at h
        cases h
      · rw [if_neg hb] at h
        have hlt : strLtb a.time b.time = true := by
          rcases hx : strLtb a.time b.time with _ | _
          · rw [hx] at h
            cases h
          · rfl
        intro _
        exact ⟨hb, charListLt_asymm hlt⟩
  · intro a b h
    unfold chatLe at h
    by_cases ha : a.time = ""
    · rw [if_pos ha] at h
      cases h
    · rw [if_neg ha] at h
      by_cases hb : b.time = ""
      · intro hne
        exact absurd hb hne
      · rw [if_neg hb] at h
        intro _
        refine ⟨ha, ?_⟩
        rcases hx : strLtb a.time b.time with _ | _
        · rfl
        · rw [hx] at h
          cases h
  · intro a b c hab hbc hcne
    rcases hbc hcne with ⟨hbne, hcb⟩
    have ha : a.time ≠ "" := by
      intro h0
      unfold chatLe at hab
      rw [if_pos h0] at hab
      cases hab
    have hanb : strLtb a.time b.time = false := by
      unfold chatLe at hab
      rw [if_neg ha, if_neg hbne] at hab
      rcases hx : strLtb a.time b.time with _ | _
      · rfl
      · rw [hx] at hab
        cases hab
    refine ⟨ha, ?_⟩
    rcases hx : strLtb a.time c.time with _ | _
    · rfl
    · exfalso
      simp only [strLtb] at hanb hcb hx
      rcases charListLt_conn hanb with hba | heq
      · have hbcx : charListLt b.time.data c.time.data = true :=
          charListLt_trans hba hx
        rw [hbcx] at hcb
        cases hcb
      · rw [heq] at hx
        rw [hx] at hcb
        cases hcb

theorem markReadStore_messages (store : Store) (jid : String)
    (readOk : Bool) : (markReadStore store jid readOk).messages =
      store.messages := by
  unfold markReadStore
  rcases readOk with _ | _
  · rfl
  · rcases h : lookupA store.chats jid with _ | chat <;> simp [h]

/-- C10: querying messages of a registered session for a conversation with
no stored messages succeeds with an empty list rather than failing — for any
outcome of the external mark-as-read call and any fetch outcome that yields
no messages (the fetch threw, or returned the empty list). -/
theorem getChatMessages_empty_ok :
    ∀ (st : ServerState) (sessionId jid : String) (readOk : Bool)
      (fetchRes : Option (List Msg)) (cl : Client),
      lookupA st.clients sessionId = some cl →
      (lookupA cl.store.messages jid).getD [] = [] →
      (fetchRes = none ∨ fetchRes = some []) →
      (getChatMessages st sessionId jid readOk fetchRes).2 =
        { success := true, messages := [] } := by
  intro st sessionId jid readOk fetchRes cl hcl hmsgs hf
  have h1 : (lookupA (markReadStore cl.store jid readOk).messages jid).getD []
      = [] := by
    rw [markReadStore_messages]
    exact hmsgs
  have h2 : (lookupA (fetchIfEmpty (markReadStore cl.store jid readOk) jid
      fetchRes).messages jid).getD [] = [] := by
    unfold fetchIfEmpty
    rw [if_pos (by rw [h1]; rfl)]
    rcases hf with hf | hf <;> subst hf
    · exact h1
    · simp [lookupA_setA_self]
  unfold getChatMessages
  rw [hcl]
  simp only
  rw [if_pos (by rw [h2]; rfl)]

theorem getChatMessages_empty_ok_witness :
    (lookupA exLive.clients "s1" = some { token := 0, store := emptyStore } ∧
      (lookupA (emptyStore : Store).messages "777@s.whatsapp.net").getD [] = []) ∧
    (getChatMessages exLive "s1" "777@s.whatsapp.net" true none).2 =
      { success := true, messages := [] } :=
  ⟨⟨by decide, by decide⟩,
    getChatMessages_empty_ok exLive "s1" "777@s.whatsapp.net" true none
      { token := 0, store := emptyStore } (by decide) (by decide) (Or.inl rfl)⟩

end Wadash
